import Mathlib

/-!
Verification of the go-gpm Google Photos client core.

This file gives a shallow embedding of the client runtime — the auth
manager, the commit quality/device-model mapping, the token-exchange reply
parser, the dedup-key codec, the identifier resolver, the download filename
resolution, the schemaless library-response decoder, and the upload batch
driver — together with theorems checking the specification's claims.

Go strings are modelled as Lean `String` where only equality and
concatenation are used, and as `List Char` (or `List Nat` for byte strings)
where the code indexes, splits or trims. Machine integers are modelled as
`Int`/`Nat` with explicit wrapping where the code can overflow. External
effects (file system, network, clock) are oracle parameters threaded
through explicitly.
-/

namespace GoGpm

/-! ### Auth manager: `GetAuthToken` (src/unnamed/part_007, lines 152-169)

`GetAuthToken` holds the auth mutex for the whole call, so one call sees a
consistent snapshot of the token cache, the clock and the outcome the
token-exchange endpoint would produce; the snapshot is the `AuthEnv`. -/

/-- Environment snapshot for one `GetAuthToken` call: the token-cache pair
`(token, expiry)`, the current time, and the result `refreshAccessToken`
would return if invoked. -/
structure AuthEnv where
  cachedToken : String
  cachedExpiry : Int
  now : Int
  refreshResult : Except String (String × Int)

/-- Observable outcome of one `GetAuthToken` call: the returned token or
error, whether a token exchange (network refresh) was performed, and the
pair written through to the token cache (if any). -/
structure AuthCallResult where
  result : Except String String
  exchanged : Bool
  cacheWrite : Option (String × Int)

/-- Shallow embedding of `Api.GetAuthToken`: return the cached token when it
is non-empty and unexpired, otherwise refresh, write through, and return the
fresh token. -/
def getAuthToken (env : AuthEnv) : AuthCallResult :=
  if env.cachedToken ≠ "" ∧ env.cachedExpiry > env.now then
    ⟨.ok env.cachedToken, false, none⟩
  else
    match env.refreshResult with
    | .error e => ⟨.error ("failed to refresh auth token: " ++ e), true, none⟩
    | .ok (t, exp) => ⟨.ok t, true, some (t, exp)⟩

/-- Claim C3: `GetAuthToken` returns the cached token without a
token-exchange call if and only if the cached token is non-empty and its
expiry is strictly greater than the current time; otherwise it performs one
exchange, writes the returned `(Auth, Expiry)` pair through to the token
cache, and returns `Auth`. -/
theorem getAuthToken_spec (env : AuthEnv) :
    ((getAuthToken env).exchanged = false ↔
      (env.cachedToken ≠ "" ∧ env.cachedExpiry > env.now))
    ∧ (env.cachedToken ≠ "" ∧ env.cachedExpiry > env.now →
        getAuthToken env = ⟨.ok env.cachedToken, false, none⟩)
    ∧ (∀ t exp, ¬(env.cachedToken ≠ "" ∧ env.cachedExpiry > env.now) →
        env.refreshResult = .ok (t, exp) →
        getAuthToken env = ⟨.ok t, true, some (t, exp)⟩) := by
  unfold getAuthToken
  by_cases h : env.cachedToken ≠ "" ∧ env.cachedExpiry > env.now
  · simp [h]
  · cases hr : env.refreshResult with
    | error e => simp [h, hr]
    | ok p => cases p with | mk t exp => simp [h, hr]

/-- Witness for C3: a non-empty cached token with expiry 10 at time 5 is
returned without an exchange. -/
theorem getAuthToken_spec_witness :
    getAuthToken ⟨"tok", 10, 5, Except.error "down"⟩ =
      ⟨.ok "tok", false, none⟩ :=
  (getAuthToken_spec ⟨"tok", 10, 5, Except.error "down"⟩).2.1 (by decide)

/-! ### Upload commit quality mapping: `CommitUpload`
(src/internal/core/upload.go, lines 131-148) -/

/-- Shallow embedding of the quality/quota → (device model, quality code)
computation inside `Api.CommitUpload`. The arguments mirror the `Api`
fields `Model`, `Quality`, `UseQuota` and the call parameters `qualityStr`,
`useQuota`; the result is the `(model, quality)` pair placed into the
commit request. -/
def commitUploadModelQuality (apiModel apiQuality : String) (apiUseQuota : Bool)
    (qualityStr : String) (useQuota : Bool) : String × Int :=
  let effectiveQuality := if qualityStr = "" then apiQuality else qualityStr
  let effectiveUseQuota := useQuota || apiUseQuota
  let mq : String × Int :=
    if effectiveQuality = "storage-saver" then ("Pixel 2", 1) else (apiModel, 3)
  if effectiveUseQuota then ("Pixel 8", mq.2) else mq

/-- Counterexample to C4 as stated: with the quality input empty and the
client's default quality set to "storage-saver", the quality input is not
"storage-saver", yet the code sends model "Pixel 2" and code 1 instead of
the caller's default model with code 3 — the mapping is driven by the
effective quality (input, or client default when the input is empty), not
by the input alone. -/
theorem commitUpload_quality_counterexample :
    commitUploadModelQuality "Pixel XL" "storage-saver" false "" false = ("Pixel 2", 1)
    ∧ commitUploadModelQuality "Pixel XL" "storage-saver" false "" false ≠ ("Pixel XL", 3) := by
  constructor
  · rfl
  · decide

/-- Claim C4 (amended): `CommitUpload` maps the effective quality (the
`qualityStr` input, or the client's default quality when the input is
empty) and the effective `use_quota` flag (the input or the client default)
as follows: effective quality "storage-saver" gives model "Pixel 2" and
quality code 1; otherwise the model is the client's default and the code
is 3; and when `use_quota` is in effect the model is overridden to
"Pixel 8" regardless of quality, the quality code being unchanged. -/
theorem commitUpload_quality_mapping (apiModel apiQuality : String)
    (apiUseQuota : Bool) (qualityStr : String) (useQuota : Bool) :
    ((if qualityStr = "" then apiQuality else qualityStr) = "storage-saver" →
      (useQuota || apiUseQuota) = false →
      commitUploadModelQuality apiModel apiQuality apiUseQuota qualityStr useQuota
        = ("Pixel 2", 1))
    ∧ ((if qualityStr = "" then apiQuality else qualityStr) ≠ "storage-saver" →
      (useQuota || apiUseQuota) = false →
      commitUploadModelQuality apiModel apiQuality apiUseQuota qualityStr useQuota
        = (apiModel, 3))
    ∧ ((useQuota || apiUseQuota) = true →
      (commitUploadModelQuality apiModel apiQuality apiUseQuota qualityStr useQuota).1
          = "Pixel 8"
      ∧ (commitUploadModelQuality apiModel apiQuality apiUseQuota qualityStr useQuota).2
          = (if (if qualityStr = "" then apiQuality else qualityStr)
              = "storage-saver" then 1 else 3)) := by
  unfold commitUploadModelQuality
  refine ⟨?_, ?_, ?_⟩
  · intro hq huq
    simp only [hq, huq]
    simp
  · intro hq huq
    simp only [huq]
    simp [hq]
  · intro huq
    simp only [huq]
    by_cases hq : (if qualityStr = "" then apiQuality else qualityStr)
        = "storage-saver" <;> simp [hq]

/-- Witness for C4 (amended): quality "storage-saver" without quota gives
model "Pixel 2" and code 1. -/
theorem commitUpload_quality_mapping_witness :
    commitUploadModelQuality "Pixel XL" "" false "storage-saver" false = ("Pixel 2", 1) :=
  (commitUpload_quality_mapping "Pixel XL" "" false "storage-saver" false).1
    (by decide) (by decide)

/-! ### Token-exchange reply parsing: `refreshAccessToken`
(src/unnamed/part_007, lines 234-256)

The gzip-decoded reply body is a sequence of `key=value` lines. The code
splits on newlines, trims whitespace, skips empty lines, splits each line
at the first `=`, collects the pairs into a map, requires non-empty `Auth`
and `Expiry` values, and parses `Expiry` as a signed 64-bit decimal. -/

/-- Character-level split, mirroring `strings.Split` with a one-character
separator. -/
def splitOnChar (sep : Char) : List Char → List (List Char)
  | [] => [[]]
  | c :: rest =>
    let r := splitOnChar sep rest
    if c = sep then [] :: r
    else
      match r with
      | [] => [[c]]
      | h :: t => (c :: h) :: t

/-- Whitespace set trimmed by `strings.TrimSpace` (the ASCII part plus the
two Latin-1 spaces Go also trims). -/
def isGoSpace (c : Char) : Bool :=
  c = ' ' || c = Char.ofNat 9 || c = Char.ofNat 10 || c = Char.ofNat 11 ||
  c = Char.ofNat 12 || c = Char.ofNat 13 || c = Char.ofNat 0x85 || c = Char.ofNat 0xA0

/-- Drop leading Go whitespace. -/
def dropLeadingSpace : List Char → List Char
  | [] => []
  | c :: rest => if isGoSpace c then dropLeadingSpace rest else c :: rest

/-- Mirror of `strings.TrimSpace`. -/
def goTrimSpace (cs : List Char) : List Char :=
  ((dropLeadingSpace ((dropLeadingSpace cs.reverse)).reverse).reverse).reverse

/-- Split at the first occurrence of `sep`, mirroring
`strings.SplitN(s, sep, 2)` when the separator is one character; `none`
when the separator does not occur (the `len(parts) == 2` check fails). -/
def splitAtFirst (sep : Char) : List Char → Option (List Char × List Char)
  | [] => none
  | c :: rest =>
    if c = sep then some ([], rest)
    else (splitAtFirst sep rest).map (fun p => (c :: p.1, p.2))

/-- Go-map assignment on an association list: overwrite the existing entry
or append a new one. -/
def mapSet (m : List (List Char × List Char)) (k v : List Char) :
    List (List Char × List Char) :=
  match m with
  | [] => [(k, v)]
  | (k', v') :: t => if k' = k then (k, v) :: t else (k', v') :: mapSet t k v

/-- Go-map lookup on an association list. -/
def mapLookup (m : List (List Char × List Char)) (k : List Char) :
    Option (List Char) :=
  match m with
  | [] => none
  | (k', v') :: t => if k' = k then some v' else mapLookup t k

/-- Go-map read: a missing key yields the zero value (empty string). -/
def mapGetD (m : List (List Char × List Char)) (k : List Char) : List Char :=
  (mapLookup m k).getD []

/-- Parse the `key=value` line format of the auth reply into a map,
mirroring the loop in `refreshAccessToken`. -/
def parseAuthBody (body : List Char) : List (List Char × List Char) :=
  (splitOnChar (Char.ofNat 10) body).foldl
    (fun m line =>
      let line := goTrimSpace line
      if line = [] then m
      else
        match splitAtFirst '=' line with
        | none => m
        | some (k, v) => mapSet m k v)
    []

/-- Decimal digit test. -/
def isDecDigit (c : Char) : Bool := 48 ≤ c.toNat && c.toNat ≤ 57

/-- Accumulate decimal digits into a natural number. -/
def digitsToNat (ds : List Char) : Nat :=
  ds.foldl (fun n c => n * 10 + (c.toNat - 48)) 0

/-- Mirror of `strconv.ParseInt(s, 10, 64)`: an optional sign, a non-empty
run of decimal digits, and a signed 64-bit range check. -/
def goParseInt64 (cs : List Char) : Option Int :=
  match cs with
  | [] => none
  | _ =>
    let signDigits : Bool × List Char :=
      match cs with
      | '+' :: t => (false, t)
      | '-' :: t => (true, t)
      | t => (false, t)
    let neg := signDigits.1
    let ds := signDigits.2
    if ds = [] ∨ ¬ ds.all isDecDigit then none
    else
      let n := digitsToNat ds
      if neg then
        if n ≤ 2 ^ 63 then some (-(n : Int)) else none
      else
        if n < 2 ^ 63 then some (n : Int) else none

/-- Error cases of the reply-validation step of `refreshAccessToken`. -/
inductive AuthParseErr where
  | missingKeys
  | badExpiry
deriving DecidableEq

/-- Shallow embedding of the reply-parsing tail of `refreshAccessToken`:
build the key/value map, fail when `Auth` or `Expiry` is empty or absent,
fail when `Expiry` does not parse as a decimal 64-bit integer, and
otherwise return the `(Auth, Expiry)` pair. -/
def parseAuthTokenReply (body : List Char) :
    Except AuthParseErr (List Char × Int) :=
  let m := parseAuthBody body
  if mapGetD m ("Auth".data) = [] ∨ mapGetD m ("Expiry".data) = [] then
    .error .missingKeys
  else
    match goParseInt64 (mapGetD m ("Expiry".data)) with
    | none => .error .badExpiry
    | some v => .ok (mapGetD m ("Auth".data), v)

/-- An empty string never parses as an integer. -/
theorem goParseInt64_nil : goParseInt64 [] = none := rfl

/-- Claim C8: the token-exchange reply parsing fails with an AUTH error
whenever the decoded key=value map is missing the `Auth` key or the
`Expiry` key, fails when the `Expiry` value does not parse as a decimal
integer, and on success returns exactly the `Auth` string and the parsed
`Expiry`. -/
theorem parseAuthTokenReply_spec (body : List Char) :
    ((mapLookup (parseAuthBody body) ("Auth".data) = none
        ∨ mapLookup (parseAuthBody body) ("Expiry".data) = none) →
      parseAuthTokenReply body = .error .missingKeys)
    ∧ (mapGetD (parseAuthBody body) ("Auth".data) ≠ [] →
        mapGetD (parseAuthBody body) ("Expiry".data) ≠ [] →
        goParseInt64 (mapGetD (parseAuthBody body) ("Expiry".data)) = none →
        parseAuthTokenReply body = .error .badExpiry)
    ∧ (∀ n : Int,
        mapGetD (parseAuthBody body) ("Auth".data) ≠ [] →
        goParseInt64 (mapGetD (parseAuthBody body) ("Expiry".data)) = some n →
        parseAuthTokenReply body
          = .ok (mapGetD (parseAuthBody body) ("Auth".data), n)) := by
  refine ⟨?_, ?_, ?_⟩
  · intro h
    unfold parseAuthTokenReply
    rcases h with h | h <;> simp [mapGetD, h]
  · intro ha he hp
    unfold parseAuthTokenReply
    simp [ha, he, hp]
  · intro n ha hp
    have he : mapGetD (parseAuthBody body) ("Expiry".data) ≠ [] := by
      intro hnil
      rw [hnil, goParseInt64_nil] at hp
      exact Option.noConfusion hp
    unfold parseAuthTokenReply
    simp [ha, he, hp]

/-- Witness for C8: the reply `Auth=abc\nExpiry=99\n` parses to the pair
`("abc", 99)`. -/
theorem parseAuthTokenReply_spec_witness :
    parseAuthTokenReply ("Auth=abc\nExpiry=99\n".data)
      = .ok ("abc".data, 99) := by
  have h := (parseAuthTokenReply_spec ("Auth=abc\nExpiry=99\n".data)).2.2 99
    (by decide) (by decide)
  simpa using h

/-! ### Dedup-key codec

`SHA1ToDedupeKey` and `DedupeKeyToSHA1` are called from
src/internal/core/upload.go and src/unnamed/part_008 but their bodies are
not under src/; they are modelled from the spec (§4.6): URL-safe base64
without padding of 20 raw bytes, and its inverse which fails when the
decoded length is not 20 bytes. `DedupKeyPattern` itself is in
src/internal/core/upload.go, line 228. -/

/-- Value 0..63 → URL-safe base64 alphabet character. -/
def sextetToChar (n : Nat) : Char :=
  if n < 26 then Char.ofNat (65 + n)
  else if n < 52 then Char.ofNat (97 + (n - 26))
  else if n < 62 then Char.ofNat (48 + (n - 52))
  else if n = 62 then '-'
  else '_'

/-- URL-safe base64 alphabet character → value 0..63, `none` otherwise. -/
def charToSextet (c : Char) : Option Nat :=
  if 65 ≤ c.toNat ∧ c.toNat ≤ 90 then some (c.toNat - 65)
  else if 97 ≤ c.toNat ∧ c.toNat ≤ 122 then some (c.toNat - 97 + 26)
  else if 48 ≤ c.toNat ∧ c.toNat ≤ 57 then some (c.toNat - 48 + 52)
  else if c.toNat = 45 then some 62
  else if c.toNat = 95 then some 63
  else none

/-- Modelled from the spec: URL-safe base64 encoding without padding
(`base64.RawURLEncoding.EncodeToString`). -/
def b64UrlEncode : List Nat → List Char
  | b1 :: b2 :: b3 :: rest =>
    sextetToChar (b1 / 4) ::
    sextetToChar ((b1 % 4) * 16 + b2 / 16) ::
    sextetToChar ((b2 % 16) * 4 + b3 / 64) ::
    sextetToChar (b3 % 64) :: b64UrlEncode rest
  | [b1, b2] =>
    [sextetToChar (b1 / 4), sextetToChar ((b1 % 4) * 16 + b2 / 16),
      sextetToChar ((b2 % 16) * 4)]
  | [b1] =>
    [sextetToChar (b1 / 4), sextetToChar ((b1 % 4) * 16)]
  | [] => []

/-- Modelled from the spec: URL-safe base64 decoding without padding
(`base64.RawURLEncoding.DecodeString`); rejects invalid characters and a
trailing group of one character, and discards unused trailing bits as Go's
non-strict decoder does. -/
def b64UrlDecode : List Char → Option (List Nat)
  | c1 :: c2 :: c3 :: c4 :: rest => do
    let s1 ← charToSextet c1
    let s2 ← charToSextet c2
    let s3 ← charToSextet c3
    let s4 ← charToSextet c4
    let r ← b64UrlDecode rest
    pure ((s1 * 4 + s2 / 16) :: ((s2 % 16) * 16 + s3 / 4) ::
      ((s3 % 4) * 64 + s4) :: r)
  | [c1, c2, c3] => do
    let s1 ← charToSextet c1
    let s2 ← charToSextet c2
    let s3 ← charToSextet c3
    pure [s1 * 4 + s2 / 16, (s2 % 16) * 16 + s3 / 4]
  | [c1, c2] => do
    let s1 ← charToSextet c1
    let s2 ← charToSextet c2
    pure [s1 * 4 + s2 / 16]
  | [_] => none
  | [] => some []

/-- Modelled from the spec: `SHA1ToDedupeKey`, URL-safe base64 without
padding of the raw digest bytes. -/
def sha1ToDedupeKey (hash : List Nat) : List Char := b64UrlEncode hash

/-- Modelled from the spec: `DedupeKeyToSHA1`, the inverse of
`SHA1ToDedupeKey`; fails when the input does not decode or the decoded
length is not 20 bytes. -/
def dedupeKeyToSHA1 (key : List Char) : Except String (List Nat) :=
  match b64UrlDecode key with
  | none => .error "invalid dedup key"
  | some bs =>
    if bs.length = 20 then .ok bs else .error "decoded length is not 20"

/-- Membership in the character class of `DedupKeyPattern`
(src/internal/core/upload.go line 228: regexp `[A-Za-z0-9_-]`). -/
def isDedupChar (c : Char) : Bool :=
  (65 ≤ c.toNat && c.toNat ≤ 90) || (97 ≤ c.toNat && c.toNat ≤ 122) ||
  (48 ≤ c.toNat && c.toNat ≤ 57) || c.toNat = 95 || c.toNat = 45

/-- Shallow embedding of `DedupKeyPattern.MatchString`: the regexp is
anchored on both sides and requires exactly 27 characters of the class. -/
def dedupKeyPatternMatches (cs : List Char) : Bool :=
  cs.length == 27 && cs.all isDedupChar

/-- Decoding a sextet character recovers the sextet. -/
theorem charToSextet_sextetToChar (n : Nat) (h : n < 64) :
    charToSextet (sextetToChar n) = some n := by
  revert h
  revert n
  decide

/-- Every character produced by `sextetToChar` on a sextet is in the dedup
character class. -/
theorem isDedupChar_sextetToChar (n : Nat) (h : n < 64) :
    isDedupChar (sextetToChar n) = true := by
  revert h
  revert n
  decide

/-- The encoder only ever emits characters for sextets, which are below 64
whenever the input bytes are below 256. -/
theorem b64UrlEncode_chars : ∀ bs : List Nat, (∀ b ∈ bs, b < 256) →
    ∀ c ∈ b64UrlEncode bs, isDedupChar c = true := by
  intro bs
  induction bs using b64UrlEncode.induct with
  | case1 b1 b2 b3 rest ih =>
    intro hb c hc
    have h1 : b1 < 256 := hb b1 (by simp)
    have h2 : b2 < 256 := hb b2 (by simp)
    have h3 : b3 < 256 := hb b3 (by simp)
    simp only [b64UrlEncode, List.mem_cons] at hc
    rcases hc with rfl | rfl | rfl | rfl | hc
    · exact isDedupChar_sextetToChar _ (by omega)
    · exact isDedupChar_sextetToChar _ (by omega)
    · exact isDedupChar_sextetToChar _ (by omega)
    · exact isDedupChar_sextetToChar _ (by omega)
    · exact ih (fun b hbm => hb b (by simp [hbm])) c hc
  | case2 b1 b2 =>
    intro hb c hc
    have h1 : b1 < 256 := hb b1 (by simp)
    have h2 : b2 < 256 := hb b2 (by simp)
    simp only [b64UrlEncode, List.mem_cons] at hc
    rcases hc with rfl | rfl | rfl | hc
    · exact isDedupChar_sextetToChar _ (by omega)
    · exact isDedupChar_sextetToChar _ (by omega)
    · exact isDedupChar_sextetToChar _ (by omega)
    · simp at hc
  | case3 b1 =>
    intro hb c hc
    have h1 : b1 < 256 := hb b1 (by simp)
    simp only [b64UrlEncode, List.mem_cons] at hc
    rcases hc with rfl | rfl | hc
    · exact isDedupChar_sextetToChar _ (by omega)
    · exact isDedupChar_sextetToChar _ (by omega)
    · simp at hc
  | case4 =>
    intro _ c hc
    simp [b64UrlEncode] at hc

/-- Length of the padless base64 encoding. -/
theorem b64UrlEncode_length : ∀ bs : List Nat,
    (b64UrlEncode bs).length = (bs.length * 4 + 2) / 3 := by
  intro bs
  induction bs using b64UrlEncode.induct with
  | case1 b1 b2 b3 rest ih =>
    simp only [b64UrlEncode, List.length_cons, ih]
    omega
  | case2 b1 b2 => simp [b64UrlEncode]
  | case3 b1 => simp [b64UrlEncode]
  | case4 => rfl

/-- Decoding inverts encoding on byte lists. -/
theorem b64UrlDecode_b64UrlEncode : ∀ bs : List Nat, (∀ b ∈ bs, b < 256) →
    b64UrlDecode (b64UrlEncode bs) = some bs := by
  intro bs
  induction bs using b64UrlEncode.induct with
  | case1 b1 b2 b3 rest ih =>
    intro hb
    have h1 : b1 < 256 := hb b1 (by simp)
    have h2 : b2 < 256 := hb b2 (by simp)
    have h3 : b3 < 256 := hb b3 (by simp)
    have hrest := ih (fun b hbm => hb b (by simp [hbm]))
    simp only [b64UrlEncode, b64UrlDecode,
      charToSextet_sextetToChar _ (show b1 / 4 < 64 by omega),
      charToSextet_sextetToChar _ (show (b1 % 4) * 16 + b2 / 16 < 64 by omega),
      charToSextet_sextetToChar _ (show (b2 % 16) * 4 + b3 / 64 < 64 by omega),
      charToSextet_sextetToChar _ (show b3 % 64 < 64 by omega),
      hrest, Option.bind_some, Option.some_bind, Option.pure_def]
    refine congrArg some ?_
    refine List.cons_eq_cons.mpr ⟨by omega, ?_⟩
    refine List.cons_eq_cons.mpr ⟨by omega, ?_⟩
    refine List.cons_eq_cons.mpr ⟨by omega, rfl⟩
  | case2 b1 b2 =>
    intro hb
    have h1 : b1 < 256 := hb b1 (by simp)
    have h2 : b2 < 256 := hb b2 (by simp)
    simp only [b64UrlEncode, b64UrlDecode,
      charToSextet_sextetToChar _ (show b1 / 4 < 64 by omega),
      charToSextet_sextetToChar _ (show (b1 % 4) * 16 + b2 / 16 < 64 by omega),
      charToSextet_sextetToChar _ (show (b2 % 16) * 4 < 64 by omega),
      Option.some_bind, Option.pure_def]
    refine congrArg some ?_
    refine List.cons_eq_cons.mpr ⟨by omega, ?_⟩
    refine List.cons_eq_cons.mpr ⟨by omega, rfl⟩
  | case3 b1 =>
    intro hb
    have h1 : b1 < 256 := hb b1 (by simp)
    simp only [b64UrlEncode, b64UrlDecode,
      charToSextet_sextetToChar _ (show b1 / 4 < 64 by omega),
      charToSextet_sextetToChar _ (show (b1 % 4) * 16 < 64 by omega),
      Option.some_bind, Option.pure_def]
    refine congrArg some ?_
    refine List.cons_eq_cons.mpr ⟨by omega, rfl⟩
  | case4 => intro _; rfl

/-- Claim C6: for every 20-byte digest `h`,
`DedupeKeyToSHA1 (SHA1ToDedupeKey h) = h`; the intermediate string is 27
characters long, every character in the `DedupKeyPattern` class; and
`DedupeKeyToSHA1` fails on every input whose decoded length is not 20. -/
theorem dedupKey_roundtrip (h : List Nat) (hlen : h.length = 20)
    (hbytes : ∀ b ∈ h, b < 256) :
    dedupeKeyToSHA1 (sha1ToDedupeKey h) = .ok h
    ∧ (sha1ToDedupeKey h).length = 27
    ∧ dedupKeyPatternMatches (sha1ToDedupeKey h) = true
    ∧ (∀ s bs, b64UrlDecode s = some bs → bs.length ≠ 20 →
        dedupeKeyToSHA1 s = .error "decoded length is not 20") := by
  have hdec := b64UrlDecode_b64UrlEncode h hbytes
  have hl : (b64UrlEncode h).length = 27 := by
    rw [b64UrlEncode_length, hlen]
  refine ⟨?_, hl, ?_, ?_⟩
  · unfold dedupeKeyToSHA1 sha1ToDedupeKey
    rw [hdec]
    simp [hlen]
  · unfold dedupKeyPatternMatches sha1ToDedupeKey
    rw [Bool.and_eq_true, List.all_eq_true]
    exact ⟨by simp [hl], fun c hc => b64UrlEncode_chars h hbytes c hc⟩
  · intro s bs hdec' hne
    unfold dedupeKeyToSHA1
    rw [hdec']
    simp [hne]

/-- Witness for C6: the all-zero 20-byte digest round-trips through the
27-character dedup key. -/
theorem dedupKey_roundtrip_witness :
    dedupeKeyToSHA1 (sha1ToDedupeKey (List.replicate 20 0))
      = .ok (List.replicate 20 0) :=
  (dedupKey_roundtrip (List.replicate 20 0) (by decide) (by decide)).1

/-! ### Identifier resolver: `ResolveItemKey` / `ResolveMediaKey`
(src/internal/core/upload.go, lines 349-370 and 377-416) -/

/-- A dedup-class character always decodes to a sextet. -/
theorem charToSextet_isSome_of_isDedupChar (c : Char) (h : isDedupChar c = true) :
    ∃ v, charToSextet c = some v := by
  unfold isDedupChar at h
  unfold charToSextet
  simp only [Bool.or_eq_true, Bool.and_eq_true, decide_eq_true_eq] at h
  rcases h with ((((⟨h1, h2⟩ | ⟨h1, h2⟩) | ⟨h1, h2⟩) | h1) | h1) <;>
    split_ifs <;> first | exact ⟨_, rfl⟩ | omega

/-- Base64 decoding succeeds on any run of alphabet characters whose length
is not 1 modulo 4, producing `3·len/4` bytes (integer division). -/
theorem b64UrlDecode_of_valid : ∀ cs : List Char,
    (∀ c ∈ cs, isDedupChar c = true) → cs.length % 4 ≠ 1 →
    ∃ bs, b64UrlDecode cs = some bs ∧ bs.length = cs.length * 3 / 4 := by
  intro cs
  induction cs using b64UrlDecode.induct with
  | case1 c1 c2 c3 c4 rest ih =>
    intro hv hm
    obtain ⟨s1, hs1⟩ := charToSextet_isSome_of_isDedupChar c1 (hv c1 (by simp))
    obtain ⟨s2, hs2⟩ := charToSextet_isSome_of_isDedupChar c2 (hv c2 (by simp))
    obtain ⟨s3, hs3⟩ := charToSextet_isSome_of_isDedupChar c3 (hv c3 (by simp))
    obtain ⟨s4, hs4⟩ := charToSextet_isSome_of_isDedupChar c4 (hv c4 (by simp))
    have hm' : rest.length % 4 ≠ 1 := by
      simp only [List.length_cons] at hm
      omega
    obtain ⟨bs, hbs, hbl⟩ := ih (fun c hc => hv c (by simp [hc])) hm'
    refine ⟨(s1 * 4 + s2 / 16) :: ((s2 % 16) * 16 + s3 / 4) ::
      ((s3 % 4) * 64 + s4) :: bs, ?_, ?_⟩
    · simp only [b64UrlDecode, hs1, hs2, hs3, hs4, hbs]
      rfl
    · simp only [List.length_cons, hbl]
      omega
  | case2 c1 c2 c3 =>
    intro hv _
    obtain ⟨s1, hs1⟩ := charToSextet_isSome_of_isDedupChar c1 (hv c1 (by simp))
    obtain ⟨s2, hs2⟩ := charToSextet_isSome_of_isDedupChar c2 (hv c2 (by simp))
    obtain ⟨s3, hs3⟩ := charToSextet_isSome_of_isDedupChar c3 (hv c3 (by simp))
    exact ⟨[s1 * 4 + s2 / 16, (s2 % 16) * 16 + s3 / 4],
      by simp only [b64UrlDecode, hs1, hs2, hs3]; rfl, by simp⟩
  | case3 c1 c2 =>
    intro hv _
    obtain ⟨s1, hs1⟩ := charToSextet_isSome_of_isDedupChar c1 (hv c1 (by simp))
    obtain ⟨s2, hs2⟩ := charToSextet_isSome_of_isDedupChar c2 (hv c2 (by simp))
    exact ⟨[s1 * 4 + s2 / 16],
      by simp only [b64UrlDecode, hs1, hs2]; rfl, by simp⟩
  | case4 c => intro _ hm; simp at hm
  | case5 => intro _ _; exact ⟨[], rfl, rfl⟩

/-- A string matching the dedup-key pattern decodes to exactly 20 bytes, so
`DedupeKeyToSHA1` succeeds on it. -/
theorem dedupeKeyToSHA1_of_pattern (cs : List Char)
    (h : dedupKeyPatternMatches cs = true) :
    ∃ bs, b64UrlDecode cs = some bs ∧ bs.length = 20
      ∧ dedupeKeyToSHA1 cs = .ok bs := by
  unfold dedupKeyPatternMatches at h
  rw [Bool.and_eq_true, beq_iff_eq, List.all_eq_true] at h
  obtain ⟨hlen, hall⟩ := h
  obtain ⟨bs, hbs, hbl⟩ := b64UrlDecode_of_valid cs (fun c hc => hall c hc)
    (by rw [hlen]; decide)
  have h20 : bs.length = 20 := by rw [hbl, hlen]
  refine ⟨bs, hbs, h20, ?_⟩
  unfold dedupeKeyToSHA1
  rw [hbs]
  simp [h20]

/-- Oracles for the resolver: file existence (`os.Stat`), file hashing
(`CalculateSHA1`) and the dedup-index lookup (`FindMediaKeyByHash`, whose
empty-string result means "not in the library"). -/
structure ResolverEnv where
  fileExists : List Char → Bool
  calculateSHA1 : List Char → Except String (List Nat)
  findMediaKeyByHash : List Nat → Except String (List Char)

/-- Error cases of the two resolver operations. -/
inductive ResolveError where
  | inputRequired
  | dedupDecodeFailed
  | hashFailed
  | lookupFailed
  | mediaNotFound
deriving DecidableEq

/-- Shallow embedding of `GooglePhotosAPI.ResolveMediaKey`: an empty input
is rejected; a dedup-pattern input is decoded and looked up, an empty
lookup reply being NOT_FOUND; an existing file is hashed and looked up the
same way; anything else is assumed to already be a media key. -/
def resolveMediaKey (env : ResolverEnv) (input : List Char) :
    Except ResolveError (List Char) :=
  if input = [] then .error .inputRequired
  else if dedupKeyPatternMatches input then
    match dedupeKeyToSHA1 input with
    | .error _ => .error .dedupDecodeFailed
    | .ok hash =>
      match env.findMediaKeyByHash hash with
      | .error _ => .error .lookupFailed
      | .ok mk => if mk = [] then .error .mediaNotFound else .ok mk
  else if env.fileExists input then
    match env.calculateSHA1 input with
    | .error _ => .error .hashFailed
    | .ok hash =>
      match env.findMediaKeyByHash hash with
      | .error _ => .error .lookupFailed
      | .ok mk => if mk = [] then .error .mediaNotFound else .ok mk
  else .ok input

/-- Shallow embedding of `GooglePhotosAPI.ResolveItemKey`: an empty input
is rejected; a dedup-pattern input is returned as-is; an existing file is
hashed and converted to its dedup key; anything else is returned
unchanged. -/
def resolveItemKey (env : ResolverEnv) (input : List Char) :
    Except ResolveError (List Char) :=
  if input = [] then .error .inputRequired
  else if dedupKeyPatternMatches input then .ok input
  else if env.fileExists input then
    match env.calculateSHA1 input with
    | .error _ => .error .hashFailed
    | .ok hash => .ok (sha1ToDedupeKey hash)
  else .ok input

/-- A resolver environment with no files and an always-empty lookup reply. -/
def emptyResolverEnv : ResolverEnv :=
  ⟨fun _ => false, fun _ => .error "io", fun _ => .ok []⟩

/-- Counterexample to C7 as stated: the empty string matches neither the
dedup pattern nor an existing file, yet `ResolveMediaKey` does not return
it unchanged — it fails with the "item key or file path is required"
error before any branch is taken. -/
theorem resolveMediaKey_empty_counterexample :
    dedupKeyPatternMatches [] = false
    ∧ emptyResolverEnv.fileExists [] = false
    ∧ resolveMediaKey emptyResolverEnv [] = .error .inputRequired
    ∧ resolveMediaKey emptyResolverEnv [] ≠ .ok [] :=
  ⟨rfl, rfl, rfl, fun h => Except.noConfusion h⟩

/-- Claim C7 (amended): for every non-empty input, `ResolveMediaKey`
behaves as claimed: a dedup-pattern input is decoded to a SHA-1 digest
(which always succeeds for such inputs) and looked up, an empty lookup
reply yielding NOT_FOUND and a non-empty one being returned; an input
naming an existing file is hashed and handled by the same lookup rule; and
every other non-empty input is returned unchanged. The empty input instead
yields an "input required" error. -/
theorem resolveMediaKey_cases (env : ResolverEnv) (input : List Char)
    (hne : input ≠ []) :
    (dedupKeyPatternMatches input = true →
      ∃ hash, dedupeKeyToSHA1 input = .ok hash
        ∧ (env.findMediaKeyByHash hash = .ok [] →
            resolveMediaKey env input = .error .mediaNotFound)
        ∧ (∀ mk, env.findMediaKeyByHash hash = .ok mk → mk ≠ [] →
            resolveMediaKey env input = .ok mk))
    ∧ (dedupKeyPatternMatches input = false → env.fileExists input = true →
        ∀ hash, env.calculateSHA1 input = .ok hash →
          (env.findMediaKeyByHash hash = .ok [] →
            resolveMediaKey env input = .error .mediaNotFound)
          ∧ (∀ mk, env.findMediaKeyByHash hash = .ok mk → mk ≠ [] →
              resolveMediaKey env input = .ok mk))
    ∧ (dedupKeyPatternMatches input = false → env.fileExists input = false →
        resolveMediaKey env input = .ok input) := by
  refine ⟨?_, ?_, ?_⟩
  · intro hpat
    obtain ⟨hash, _, _, hok⟩ := dedupeKeyToSHA1_of_pattern input hpat
    refine ⟨hash, hok, ?_, ?_⟩
    · intro hfind
      unfold resolveMediaKey
      simp [hne, hpat, hok, hfind]
    · intro mk hfind hmk
      unfold resolveMediaKey
      simp [hne, hpat, hok, hfind, hmk]
  · intro hpat hex hash hhash
    constructor
    · intro hfind
      unfold resolveMediaKey
      simp [hne, hpat, hex, hhash, hfind]
    · intro mk hfind hmk
      unfold resolveMediaKey
      simp [hne, hpat, hex, hhash, hfind, hmk]
  · intro hpat hex
    unfold resolveMediaKey
    simp [hne, hpat, hex]

/-- Witness for C7 (amended): the 27-character key "AAA…A" matches the
pattern and, with an empty lookup reply, resolves to NOT_FOUND (spec
scenario 4). -/
theorem resolveMediaKey_cases_witness :
    resolveMediaKey emptyResolverEnv (List.replicate 27 'A')
      = .error .mediaNotFound := by
  obtain ⟨hash, hdec, hnf, _⟩ :=
    (resolveMediaKey_cases emptyResolverEnv (List.replicate 27 'A')
      (by decide)).1 (by decide)
  exact hnf rfl

/-- Claim C10: for the empty input both resolver operations fail with the
"item key or file path is required" error, for every oracle environment —
in particular without consulting the hashing or lookup oracles — and the
empty string is never returned as a key. -/
theorem resolve_empty_input (env : ResolverEnv) :
    resolveItemKey env [] = .error .inputRequired
    ∧ resolveMediaKey env [] = .error .inputRequired
    ∧ (∀ k, resolveItemKey env [] ≠ .ok k)
    ∧ (∀ k, resolveMediaKey env [] ≠ .ok k) :=
  ⟨rfl, rfl, fun _ h => Except.noConfusion h, fun _ h => Except.noConfusion h⟩

/-! ### Download filename resolution: `DownloadFile`,
`extractFilenameFromContentDisposition`, `extractFilenameFromURL`
(src/internal/core/upload.go, lines 242-309) -/

/-- Does `pat` occur at the head of `cs`? Mirror of `strings.HasPrefix`. -/
def startsWithSeq : List Char → List Char → Bool
  | [], _ => true
  | _ :: _, [] => false
  | p :: pt, c :: ct => p == c && startsWithSeq pt ct

/-- Drop leading occurrences of one character. -/
def dropLeadingChar (ch : Char) : List Char → List Char
  | [] => []
  | c :: rest => if c = ch then dropLeadingChar ch rest else c :: rest

/-- Mirror of `strings.Trim(s, cutset)` for a one-character cutset: remove
all leading and trailing occurrences. -/
def trimCharBoth (ch : Char) (cs : List Char) : List Char :=
  (dropLeadingChar ch ((dropLeadingChar ch cs.reverse)).reverse).reverse.reverse

/-- Hexadecimal digit value. -/
def hexVal (c : Char) : Option Nat :=
  if 48 ≤ c.toNat ∧ c.toNat ≤ 57 then some (c.toNat - 48)
  else if 97 ≤ c.toNat ∧ c.toNat ≤ 102 then some (c.toNat - 97 + 10)
  else if 65 ≤ c.toNat ∧ c.toNat ≤ 70 then some (c.toNat - 65 + 10)
  else none

/-- Mirror of `url.PathUnescape`: decode `%XX` escapes, failing on a
malformed escape; other characters are copied through. -/
def pathUnescape : List Char → Option (List Char)
  | [] => some []
  | '%' :: rest =>
    match rest with
    | h1 :: h2 :: t =>
      match hexVal h1, hexVal h2 with
      | some a, some b => (pathUnescape t).map (fun r => Char.ofNat (a * 16 + b) :: r)
      | _, _ => none
    | _ => none
  | c :: rest => (pathUnescape rest).map (fun r => c :: r)

/-- Scan for the first occurrence of two consecutive apostrophes (the
RFC 5987 `charset''value` separator found by `strings.Index(value, s)`
in the code) and return the suffix after it. -/
def afterDoubleApos : List Char → Option (List Char)
  | [] => none
  | [_] => none
  | a :: b :: t =>
    if a = Char.ofNat 39 ∧ b = Char.ofNat 39 then some t
    else afterDoubleApos (b :: t)

/-- Scan the split parts of a Content-Disposition header in order,
mirroring the loop of `extractFilenameFromContentDisposition`: a
`filename*=` part with a `charset''value` marker returns the
percent-decoded value (or the raw value if decoding fails); a `filename=`
part returns the value with surrounding quotes trimmed; anything else
(including a `filename*=` part without the marker) is skipped. -/
def cdScanParts : List (List Char) → List Char
  | [] => []
  | p :: ps =>
    let q := goTrimSpace p
    if startsWithSeq ("filename*=".data) q then
      match afterDoubleApos (q.drop 10) with
      | some fname =>
        match pathUnescape fname with
        | some d => d
        | none => fname
      | none => cdScanParts ps
    else if startsWithSeq ("filename=".data) q then
      trimCharBoth (Char.ofNat 34) (q.drop 9)
    else cdScanParts ps

/-- Shallow embedding of `extractFilenameFromContentDisposition`. -/
def extractFilenameFromCD (header : List Char) : List Char :=
  if header = [] then [] else cdScanParts (splitOnChar ';' header)

/-- Return the first segment (scanning the given list, which the caller
reverses) that is non-empty and contains a dot, mirroring the
backwards loop of `extractFilenameFromURL`. -/
def firstDotSegment : List (List Char) → List Char
  | [] => []
  | s :: t => if s ≠ [] ∧ s.contains '.' then s else firstDotSegment t

/-- Shallow embedding of `extractFilenameFromURL`. `parseURLPath` is the
oracle for `url.Parse(urlStr).Path` (`none` when parsing fails). -/
def extractFilenameFromURL (parseURLPath : List Char → Option (List Char))
    (urlStr : List Char) : List Char :=
  match parseURLPath urlStr with
  | none => []
  | some path => firstDotSegment (splitOnChar '/' path).reverse

/-- Shallow embedding of the filename-selection chain in `DownloadFile`
(after the 2xx status check): the provided name, else the
Content-Disposition name, else the URL-derived name, else "download". -/
def chooseDownloadFilename (parseURLPath : List Char → Option (List Char))
    (provided cdHeader urlStr : List Char) : List Char :=
  let f1 := provided
  let f2 := if f1 = [] then extractFilenameFromCD cdHeader else f1
  let f3 := if f2 = [] then extractFilenameFromURL parseURLPath urlStr else f2
  if f3 = [] then "download".data else f3

/-- The backwards scan of `extractFilenameFromURL` picks the first segment
of its (reversed) input that is non-empty and contains a dot. -/
theorem firstDotSegment_eq_find (segs : List (List Char)) :
    firstDotSegment segs
      = (segs.find? (fun s => decide (s ≠ []) && s.contains '.')).getD [] := by
  induction segs with
  | nil => rfl
  | cons s t ih =>
    cases hpred : (decide (s ≠ []) && s.contains '.') with
    | true =>
      have hpred' := hpred
      rw [Bool.and_eq_true] at hpred'
      unfold firstDotSegment
      rw [if_pos ⟨of_decide_eq_true hpred'.1, hpred'.2⟩]
      simp only [List.find?, hpred, Option.getD_some]
    | false =>
      have hs : ¬(s ≠ [] ∧ s.contains '.' = true) := by
        intro h
        rw [h.2] at hpred
        simp only [Bool.and_true, decide_eq_false_iff_not] at hpred
        exact hpred h.1
      unfold firstDotSegment
      rw [if_neg hs, ih]
      simp only [List.find?, hpred]

/-- Claim C9: download filename resolution follows the priority
(1) caller-provided name when non-empty; (2) the name extracted from the
Content-Disposition header; (3) the last non-empty URL path segment
containing a dot; (4) the literal "download". -/
theorem chooseDownloadFilename_spec
    (parseURLPath : List Char → Option (List Char))
    (provided cdHeader urlStr : List Char) :
    (provided ≠ [] →
      chooseDownloadFilename parseURLPath provided cdHeader urlStr = provided)
    ∧ (provided = [] → extractFilenameFromCD cdHeader ≠ [] →
      chooseDownloadFilename parseURLPath provided cdHeader urlStr
        = extractFilenameFromCD cdHeader)
    ∧ (provided = [] → extractFilenameFromCD cdHeader = [] →
      extractFilenameFromURL parseURLPath urlStr ≠ [] →
      chooseDownloadFilename parseURLPath provided cdHeader urlStr
        = extractFilenameFromURL parseURLPath urlStr)
    ∧ (provided = [] → extractFilenameFromCD cdHeader = [] →
      extractFilenameFromURL parseURLPath urlStr = [] →
      chooseDownloadFilename parseURLPath provided cdHeader urlStr
        = "download".data)
    ∧ (∀ path, parseURLPath urlStr = some path →
      extractFilenameFromURL parseURLPath urlStr
        = ((splitOnChar '/' path).reverse.find?
            (fun s => decide (s ≠ []) && s.contains '.')).getD []) := by
  refine ⟨?_, ?_, ?_, ?_, ?_⟩
  · intro h1
    unfold chooseDownloadFilename
    simp [h1]
  · intro h1 h2
    unfold chooseDownloadFilename
    simp [h1, h2]
  · intro h1 h2 h3
    unfold chooseDownloadFilename
    simp [h1, h2, h3]
  · intro h1 h2 h3
    unfold chooseDownloadFilename
    simp [h1, h2, h3]
  · intro path hp
    unfold extractFilenameFromURL
    rw [hp]
    exact firstDotSegment_eq_find (splitOnChar '/' path).reverse

/-- Witness for C9: with no provided name and no Content-Disposition
header, the filename comes from the URL path segment "b.jpg". -/
theorem chooseDownloadFilename_spec_witness :
    chooseDownloadFilename (fun _ => some ("/a/b.jpg".data)) [] []
      ("https://h/a/b.jpg".data) = "b.jpg".data := by
  have h := (chooseDownloadFilename_spec (fun _ => some ("/a/b.jpg".data)) [] []
    ("https://h/a/b.jpg".data)).2.2.1 rfl rfl (by decide)
  simpa using h

/-! ### Schemaless library-response decoder: `decodeProtobufToJSON`,
`isValidUTF8`, `decodeRune`, `parseLibraryResponse`, `parseMediaItem`,
`parseAlbum` (src/internal/core/library.go, lines 998-1142 and 1403-1603)

Bytes are `Nat` values (< 256 for real inputs). The dynamic values the Go
decoder stores in its `map[string]any` are modelled by `PBValue`: `u64`
for varint and fixed64 (Go `uint64`), `u32` for fixed32 (Go `uint32`),
`str` for byte strings promoted to Go strings, `obj` for nested maps and
`arr` for repeated fields. Go strings originating from raw reply bytes are
kept as byte lists. The unbounded decode loop is driven by a fuel
parameter; `decodeProtobufToJSON` supplies `data.length` fuel, which is
proved sufficient (`decodeFields_no_fuel`), so the `outOfFuel` error is
unreachable — this is the termination argument for the Go loop. -/

/-- Dynamic value in the decoded tree. -/
inductive PBValue where
  | u64 (v : Nat)
  | u32 (v : Nat)
  | str (bytes : List Nat)
  | obj (fields : List (Nat × PBValue))
  | arr (elems : List PBValue)

/-- A decoded message: field number → value, in insertion order. -/
abbrev PBObj := List (Nat × PBValue)

/-- Errors of the decoder (`outOfFuel` is the artificial fuel bound; the
rest mirror the `fmt.Errorf` cases of `decodeProtobufToJSON`). -/
inductive DecodeErr where
  | outOfFuel
  | badTag
  | badVarint
  | badBytes
  | badFixed64
  | badFixed32
  | groupsUnsupported
  | unknownWireType (t : Nat)
deriving DecidableEq

/-- Base-128 varint decoding (`protowire.ConsumeVarint`): at most ten
bytes, the tenth being at most 1; returns the value and the remaining
bytes. -/
def consumeVarintAux : Nat → Nat → Nat → List Nat → Option (Nat × List Nat)
  | _, _, _, [] => none
  | idx, shift, acc, b :: rest =>
    if idx == 9 then
      if b ≤ 1 then some (acc + b * 2 ^ shift, rest) else none
    else if b < 128 then some (acc + b * 2 ^ shift, rest)
    else consumeVarintAux (idx + 1) (shift + 7) (acc + (b % 128) * 2 ^ shift) rest

/-- Consume one varint from the head of the data. -/
def consumeVarint (data : List Nat) : Option (Nat × List Nat) :=
  consumeVarintAux 0 0 0 data

/-- Tag decoding (`protowire.ConsumeTag`): a varint whose high bits are
the field number — truncated to a signed 32-bit quantity which must be
at least 1 — and whose low three bits are the wire type. -/
def consumeTag (data : List Nat) : Option (Nat × Nat × List Nat) :=
  match consumeVarint data with
  | none => none
  | some (v, rest) =>
    let num := (v / 8) % 2 ^ 32
    if 1 ≤ num ∧ num < 2 ^ 31 then some (num, v % 8, rest) else none

/-- Little-endian fixed-width read (`protowire.ConsumeFixed64` /
`ConsumeFixed32`). -/
def takeFixed : Nat → List Nat → Option (Nat × List Nat)
  | 0, rest => some (0, rest)
  | _ + 1, [] => none
  | k + 1, b :: rest => (takeFixed k rest).map (fun p => (b + p.1 * 256, p.2))

/-- Length-delimited read (`protowire.ConsumeBytes`): a varint length
followed by that many payload bytes. -/
def consumeBytes (data : List Nat) : Option (List Nat × List Nat) :=
  match consumeVarint data with
  | none => none
  | some (m, rest) =>
    if m ≤ rest.length then some (rest.take m, rest.drop m) else none

/-- Standard base64 alphabet value → ASCII code
(`base64.StdEncoding`). -/
def b64StdCharCode (n : Nat) : Nat :=
  if n < 26 then 65 + n
  else if n < 52 then 97 + (n - 26)
  else if n < 62 then 48 + (n - 52)
  else if n = 62 then 43
  else 47

/-- Standard base64 with `=` padding (code 61), used by the decoder to
promote non-textual bytes to a string. -/
def b64StdEncode : List Nat → List Nat
  | b1 :: b2 :: b3 :: rest =>
    b64StdCharCode (b1 / 4) ::
    b64StdCharCode ((b1 % 4) * 16 + b2 / 16) ::
    b64StdCharCode ((b2 % 16) * 4 + b3 / 64) ::
    b64StdCharCode (b3 % 64) :: b64StdEncode rest
  | [b1, b2] =>
    [b64StdCharCode (b1 / 4), b64StdCharCode ((b1 % 4) * 16 + b2 / 16),
      b64StdCharCode ((b2 % 16) * 4), 61]
  | [b1] =>
    [b64StdCharCode (b1 / 4), b64StdCharCode ((b1 % 4) * 16), 61, 61]
  | [] => []

/-- Mirror of the hand-rolled `decodeRune` of the Go code: returns the
code point and the number of bytes consumed (1..4), with 0xFFFD/size-1 as
the failure marker. -/
def goDecodeRune : List Nat → Nat × Nat
  | [] => (0xFFFD, 0)
  | b :: rest =>
    if b < 0x80 then (b, 1)
    else if b < 0xC0 then (0xFFFD, 1)
    else if b < 0xE0 then
      match rest with
      | [] => (0xFFFD, 1)
      | b1 :: _ => ((b % 0x20) * 64 + b1 % 64, 2)
    else if b < 0xF0 then
      match rest with
      | b1 :: b2 :: _ => ((b % 0x10) * 4096 + (b1 % 64) * 64 + b2 % 64, 3)
      | _ => (0xFFFD, 1)
    else
      match rest with
      | b1 :: b2 :: b3 :: _ =>
        ((b % 8) * 262144 + (b1 % 64) * 4096 + (b2 % 64) * 64 + b3 % 64, 4)
      | _ => (0xFFFD, 1)

/-- Fuel-driven loop of the Go `isValidUTF8`: walk rune by rune, rejecting
the failure marker and non-printable control characters other than tab,
newline and carriage return. The fuel is the byte length, which bounds
the number of iterations since every rune consumes at least one byte. -/
def isValidUTF8Aux : Nat → List Nat → Bool
  | 0, _ => true
  | fuel + 1, data =>
    if data = [] then true
    else
      let rs := goDecodeRune data
      if rs.1 == 0xFFFD && rs.2 == 1 then false
      else if rs.1 < 0x20 && !(rs.1 == 9 || rs.1 == 10 || rs.1 == 13) then false
      else isValidUTF8Aux fuel (data.drop rs.2)

/-- Mirror of the Go `isValidUTF8`. -/
def isValidUTF8 (data : List Nat) : Bool := isValidUTF8Aux data.length data

/-- Go-map lookup by field number. -/
def objFind (m : PBObj) (k : Nat) : Option PBValue :=
  match m with
  | [] => none
  | (k', v) :: t => if k' = k then some v else objFind t k

/-- Replace the value stored under a key (the key is present). -/
def objSet (m : PBObj) (k : Nat) (v : PBValue) : PBObj :=
  match m with
  | [] => []
  | (k', v') :: t => if k' = k then (k, v) :: t else (k', v') :: objSet t k v

/-- Mirror of the repeated-field accumulation in `decodeProtobufToJSON`:
a second value under the same field number turns the entry into an array;
later ones are appended to it. -/
def addField (m : PBObj) (k : Nat) (v : PBValue) : PBObj :=
  match objFind m k with
  | none => m ++ [(k, v)]
  | some (.arr l) => objSet m k (.arr (l ++ [v]))
  | some old => objSet m k (.arr [old, v])

/-- Fuel-driven main loop of `decodeProtobufToJSON`: consume a tag, then a
value by wire type — a length-delimited payload is recursively decoded and
falls back to a UTF-8 or base64 string — and accumulate fields until the
data is exhausted. The recursive decode of a payload applies the wrapper
logic inline: an empty payload or empty result is `nil`, a decode error
falls back to the string promotion (a fuel error aborts, which is
unreachable at the fuel `decodeProtobufToJSON` supplies). -/
def decodeFields : Nat → List Nat → PBObj → Except DecodeErr PBObj
  | _, [], acc => .ok acc
  | 0, _ :: _, _ => .error .outOfFuel
  | fuel + 1, data@(_ :: _), acc =>
    match consumeTag data with
    | none => .error .badTag
    | some (fieldNum, wireType, rest) =>
      if wireType = 0 then
        match consumeVarint rest with
        | none => .error .badVarint
        | some (v, rest2) => decodeFields fuel rest2 (addField acc fieldNum (.u64 v))
      else if wireType = 1 then
        match takeFixed 8 rest with
        | none => .error .badFixed64
        | some (v, rest2) => decodeFields fuel rest2 (addField acc fieldNum (.u64 v))
      else if wireType = 2 then
        match consumeBytes rest with
        | none => .error .badBytes
        | some (payload, rest2) =>
          let nested : Except DecodeErr (Option PBObj) :=
            if payload = [] then .ok none
            else
              match decodeFields fuel payload [] with
              | .error e => .error e
              | .ok [] => .ok none
              | .ok (f :: fs) => .ok (some (f :: fs))
          match nested with
          | .error .outOfFuel => .error .outOfFuel
          | .ok (some m) =>
            decodeFields fuel rest2 (addField acc fieldNum (.obj m))
          | _ =>
            let value : PBValue :=
              if isValidUTF8 payload then .str payload
              else .str (b64StdEncode payload)
            decodeFields fuel rest2 (addField acc fieldNum value)
      else if wireType = 5 then
        match takeFixed 4 rest with
        | none => .error .badFixed32
        | some (v, rest2) => decodeFields fuel rest2 (addField acc fieldNum (.u32 v))
      else if wireType = 3 ∨ wireType = 4 then .error .groupsUnsupported
      else .error (.unknownWireType wireType)

/-- Shallow embedding of `decodeProtobufToJSON`: `none` models the Go
`nil` result for empty input or an empty field map. -/
def decodeProtobufToJSON (data : List Nat) : Except DecodeErr (Option PBObj) :=
  if data = [] then .ok none
  else
    match decodeFields data.length data [] with
    | .error e => .error e
    | .ok [] => .ok none
    | .ok (f :: fs) => .ok (some (f :: fs))

/-- Type assertion `.(string)` on a looked-up value. -/
def asStr : Option PBValue → Option (List Nat)
  | some (.str s) => some s
  | _ => none

/-- Type assertion `.(map[string]any)` on a looked-up value. -/
def asObj : Option PBValue → Option PBObj
  | some (.obj m) => some m
  | _ => none

/-- Type assertion `.([]any)` on a looked-up value. -/
def asArr : Option PBValue → Option (List PBValue)
  | some (.arr l) => some l
  | _ => none

/-- Mirror of `getInt64`: a `uint64` is reinterpreted as a signed 64-bit
value, a `uint32` is widened, and any non-numeric value yields 0. -/
def pbGetInt64 : PBValue → Int
  | .u64 v => if v < 2 ^ 63 then (v : Int) else (v : Int) - 2 ^ 64
  | .u32 v => (v : Int)
  | _ => 0

/-- Mirror of the `MediaItemInfo` record. -/
structure MediaItemInfo where
  mediaKey : List Nat
  filename : List Nat
  caption : List Nat
  creationTimestamp : Int
  fileSize : Int
  width : Int
  height : Int
  isVideo : Bool
  isInTrash : Bool
  trashedAt : Int
  albumMediaKey : List Nat
  downloadURL : List Nat
  thumbnailURL : List Nat
  dedupKey : List Nat
deriving DecidableEq

/-- Mirror of the `AlbumInfo` record. -/
structure AlbumInfo where
  albumKey : List Nat
  name : List Nat
  itemCount : Int
  coverKey : List Nat
deriving DecidableEq

/-- Mirror of the `LibraryResponse` record. -/
structure LibraryResponse where
  mediaItems : List MediaItemInfo
  albums : List AlbumInfo
  stateToken : List Nat
  pageToken : List Nat
deriving DecidableEq

/-- The zero `MediaItemInfo` (Go zero values). -/
def emptyMediaItemInfo : MediaItemInfo :=
  ⟨[], [], [], 0, 0, 0, 0, false, false, 0, [], [], [], []⟩

/-- The zero `AlbumInfo`. -/
def emptyAlbumInfo : AlbumInfo := ⟨[], [], 0, []⟩

/-- The zero `LibraryResponse`. -/
def emptyLibraryResponse : LibraryResponse := ⟨[], [], [], []⟩

/-- Shallow embedding of `parseMediaItem`: project the fixed field paths,
with a missing or differently-typed field leaving the zero value, and the
video download/thumbnail paths overriding the image ones when both are
present, exactly as the Go assignments run in order. -/
def parseMediaItem (item : PBObj) : MediaItemInfo :=
  let mi := emptyMediaItemInfo
  let mi :=
    match asStr (objFind item 1) with
    | some mk => { mi with mediaKey := mk }
    | none => mi
  let mi :=
    match asObj (objFind item 2) with
    | some meta =>
      let mi :=
        match asStr (objFind meta 4) with
        | some fn => { mi with filename := fn }
        | none => mi
      let mi :=
        match asStr (objFind meta 3) with
        | some cp => { mi with caption := cp }
        | none => mi
      let mi :=
        match objFind meta 7 with
        | some ts => { mi with creationTimestamp := pbGetInt64 ts }
        | none => mi
      let mi :=
        match objFind meta 10 with
        | some sz => { mi with fileSize := pbGetInt64 sz }
        | none => mi
      let mi :=
        match asObj (objFind meta 13) with
        | some dk =>
          match asStr (objFind dk 1) with
          | some key => { mi with dedupKey := key }
          | none => mi
        | none => mi
      let mi :=
        match asObj (objFind meta 1) with
        | some albumInfo =>
          match asStr (objFind albumInfo 1) with
          | some amk => { mi with albumMediaKey := amk }
          | none => mi
        | none => mi
      let mi :=
        match asObj (objFind meta 16) with
        | some trashInfo =>
          let mi :=
            match objFind trashInfo 1 with
            | some st => { mi with isInTrash := pbGetInt64 st = 2 }
            | none => mi
          match objFind trashInfo 3 with
          | some ta => { mi with trashedAt := pbGetInt64 ta }
          | none => mi
        | none => mi
      mi
    | none => mi
  match asObj (objFind item 5) with
  | some dlInfo =>
    let mi :=
      match objFind dlInfo 1 with
      | some mt => { mi with isVideo := pbGetInt64 mt = 2 }
      | none => mi
    let mi :=
      match asObj (objFind dlInfo 2) with
      | some imgInfo =>
        let mi :=
          match asStr (objFind imgInfo 6) with
          | some u => { mi with downloadURL := u }
          | none => mi
        match asObj (objFind imgInfo 1) with
        | some urlInfo =>
          let mi :=
            match asStr (objFind urlInfo 1) with
            | some u => { mi with thumbnailURL := u }
            | none => mi
          let mi :=
            match objFind urlInfo 2 with
            | some w => { mi with width := pbGetInt64 w }
            | none => mi
          match objFind urlInfo 3 with
          | some h => { mi with height := pbGetInt64 h }
          | none => mi
        | none => mi
      | none => mi
    match asObj (objFind dlInfo 3) with
    | some vidInfo =>
      let mi :=
        match asStr (objFind vidInfo 5) with
        | some u => { mi with downloadURL := u }
        | none => mi
      match asObj (objFind vidInfo 2) with
      | some thumbInfo =>
        let mi :=
          match asStr (objFind thumbInfo 1) with
          | some u => { mi with thumbnailURL := u }
          | none => mi
        let mi :=
          match objFind thumbInfo 2 with
          | some w => { mi with width := pbGetInt64 w }
          | none => mi
        match objFind thumbInfo 3 with
        | some h => { mi with height := pbGetInt64 h }
        | none => mi
      | none => mi
    | none => mi
  | none => mi

/-- Shallow embedding of `parseAlbum`. -/
def parseAlbum (item : PBObj) : AlbumInfo :=
  let ai := emptyAlbumInfo
  let ai :=
    match asStr (objFind item 1) with
    | some ak => { ai with albumKey := ak }
    | none => ai
  match asObj (objFind item 2) with
  | some meta =>
    let ai :=
      match asStr (objFind meta 5) with
      | some nm => { ai with name := nm }
      | none => ai
    let ai :=
      match objFind meta 7 with
      | some ct => { ai with itemCount := pbGetInt64 ct }
      | none => ai
    match asObj (objFind meta 17) with
    | some cover =>
      match asStr (objFind cover 1) with
      | some ck => { ai with coverKey := ck }
      | none => ai
    | none => ai
  | none => ai

/-- Field 1 of the decoded root, when the root is a map and the field is a
nested map; otherwise `none` (the "malformed top-level structure" case). -/
def rootField1 (decoded : Option PBObj) : Option PBObj :=
  match decoded with
  | none => none
  | some root => asObj (objFind root 1)

/-- Projection step of `parseLibraryResponse` on an already-decoded tree:
a malformed top level yields the empty response, and otherwise the state
and page tokens and the media-item and album lists are projected from
their fixed field paths, list elements that are not maps being skipped. -/
def parseLibraryResponseDecoded (decoded : Option PBObj) : LibraryResponse :=
  match rootField1 decoded with
  | none => emptyLibraryResponse
  | some field1 =>
    let stateToken := (asStr (objFind field1 6)).getD []
    let pageToken := (asStr (objFind field1 5)).getD []
    let mediaItems :=
      match asArr (objFind field1 2) with
      | some items =>
        items.filterMap (fun it =>
          match it with
          | .obj m => some (parseMediaItem m)
          | _ => none)
      | none => []
    let albums :=
      match asArr (objFind field1 3) with
      | some items =>
        items.filterMap (fun it =>
          match it with
          | .obj m => some (parseAlbum m)
          | _ => none)
      | none => []
    ⟨mediaItems, albums, stateToken, pageToken⟩

/-- Shallow embedding of `parseLibraryResponse`: decode, propagating a
decode error, then project. -/
def parseLibraryResponse (data : List Nat) : Except DecodeErr LibraryResponse :=
  match decodeProtobufToJSON data with
  | .error e => .error e
  | .ok decoded => .ok (parseLibraryResponseDecoded decoded)

/-- A successful varint read consumes at least one byte. -/
theorem consumeVarintAux_length :
    ∀ (data : List Nat) (idx shift acc v : Nat) (rest : List Nat),
    consumeVarintAux idx shift acc data = some (v, rest) →
    rest.length < data.length := by
  intro data
  induction data with
  | nil => intro idx shift acc v rest h; exact absurd h (by simp [consumeVarintAux])
  | cons b bs ih =>
    intro idx shift acc v rest h
    unfold consumeVarintAux at h
    by_cases h9 : idx == 9
    · rw [if_pos h9] at h
      by_cases hb : b ≤ 1
      · rw [if_pos hb] at h
        simp only [Option.some.injEq, Prod.mk.injEq] at h
        obtain ⟨-, h2⟩ := h
        subst h2
        simp
      · rw [if_neg hb] at h; simp at h
    · rw [if_neg h9] at h
      by_cases hb : b < 128
      · rw [if_pos hb] at h
        simp only [Option.some.injEq, Prod.mk.injEq] at h
        obtain ⟨-, h2⟩ := h
        subst h2
        simp
      · rw [if_neg hb] at h
        have := ih (idx + 1) (shift + 7) (acc + (b % 128) * 2 ^ shift) v rest h
        simp
        omega

/-- A successful varint read consumes at least one byte. -/
theorem consumeVarint_length (data : List Nat) (v : Nat) (rest : List Nat)
    (h : consumeVarint data = some (v, rest)) : rest.length < data.length :=
  consumeVarintAux_length data 0 0 0 v rest h

/-- A successful tag read consumes at least one byte. -/
theorem consumeTag_length (data : List Nat) (n w : Nat) (rest : List Nat)
    (h : consumeTag data = some (n, w, rest)) : rest.length < data.length := by
  unfold consumeTag at h
  cases hv : consumeVarint data with
  | none => rw [hv] at h; simp at h
  | some p =>
    obtain ⟨v, rest'⟩ := p
    rw [hv] at h
    dsimp only at h
    by_cases hn : 1 ≤ (v / 8) % 2 ^ 32 ∧ (v / 8) % 2 ^ 32 < 2 ^ 31
    · rw [if_pos hn] at h
      simp only [Option.some.injEq, Prod.mk.injEq] at h
      obtain ⟨-, -, h3⟩ := h
      subst h3
      exact consumeVarint_length data v rest' hv
    · rw [if_neg hn] at h; simp at h

/-- A successful fixed-width read consumes exactly `k` bytes. -/
theorem takeFixed_length :
    ∀ (k : Nat) (data : List Nat) (v : Nat) (rest : List Nat),
    takeFixed k data = some (v, rest) → rest.length + k = data.length := by
  intro k
  induction k with
  | zero =>
    intro data v rest h
    simp only [takeFixed, Option.some.injEq, Prod.mk.injEq] at h
    obtain ⟨-, h2⟩ := h
    subst h2
    simp
  | succ k ih =>
    intro data v rest h
    cases data with
    | nil => exact absurd h (by simp [takeFixed])
    | cons b bs =>
      unfold takeFixed at h
      cases ht : takeFixed k bs with
      | none => rw [ht] at h; simp at h
      | some p =>
        obtain ⟨v', rest'⟩ := p
        rw [ht] at h
        simp only [Option.map_some', Option.some.injEq, Prod.mk.injEq] at h
        obtain ⟨-, h2⟩ := h
        subst h2
        have := ih bs v' rest' ht
        simp
        omega

/-- A successful length-delimited read consumes strictly more bytes than
the payload and the remainder together. -/
theorem consumeBytes_length (data payload rest2 : List Nat)
    (h : consumeBytes data = some (payload, rest2)) :
    payload.length + rest2.length < data.length := by
  unfold consumeBytes at h
  cases hv : consumeVarint data with
  | none => rw [hv] at h; simp at h
  | some p =>
    obtain ⟨m, rest⟩ := p
    rw [hv] at h
    dsimp only at h
    by_cases hm : m ≤ rest.length
    · rw [if_pos hm] at h
      simp only [Option.some.injEq, Prod.mk.injEq] at h
      obtain ⟨h1, h2⟩ := h
      subst h1; subst h2
      have := consumeVarint_length data m rest hv
      simp [List.length_take, List.length_drop]
      omega
    · rw [if_neg hm] at h; simp at h

/-- With fuel at least the byte length, the decode loop never exhausts its
fuel: this is the termination argument for the Go decoding loop, every
iteration of which consumes at least one byte, and every nested decode of
which runs on a strictly shorter payload. -/
theorem decodeFields_no_fuel :
    ∀ (fuel : Nat) (data : List Nat) (acc : PBObj), data.length ≤ fuel →
    decodeFields fuel data acc ≠ .error .outOfFuel := by
  intro fuel
  induction fuel with
  | zero =>
    intro data acc hlen
    have : data = [] := List.eq_nil_of_length_eq_zero (by omega)
    subst this
    simp [decodeFields]
  | succ fuel ih =>
    intro data acc hlen
    cases data with
    | nil => simp [decodeFields]
    | cons b bs =>
      have hdl : (b :: bs).length ≤ fuel + 1 := hlen
      unfold decodeFields
      cases htag : consumeTag (b :: bs) with
      | none => simp
      | some t =>
        obtain ⟨fieldNum, wireType, rest⟩ := t
        have hrest : rest.length < (b :: bs).length :=
          consumeTag_length _ _ _ _ htag
        simp only
        by_cases h0 : wireType = 0
        · rw [if_pos h0]
          cases hv : consumeVarint rest with
          | none => simp
          | some p =>
            obtain ⟨v, rest2⟩ := p
            have := consumeVarint_length rest v rest2 hv
            exact ih rest2 _ (by simp at hdl; omega)
        · rw [if_neg h0]
          by_cases h1 : wireType = 1
          · rw [if_pos h1]
            cases hv : takeFixed 8 rest with
            | none => simp
            | some p =>
              obtain ⟨v, rest2⟩ := p
              have := takeFixed_length 8 rest v rest2 hv
              exact ih rest2 _ (by simp at hdl; omega)
          · rw [if_neg h1]
            by_cases h2 : wireType = 2
            · rw [if_pos h2]
              cases hv : consumeBytes rest with
              | none => simp
              | some p =>
                obtain ⟨payload, rest2⟩ := p
                have hpr := consumeBytes_length rest payload rest2 hv
                have hp : payload.length ≤ fuel := by simp at hdl; omega
                have hr : rest2.length ≤ fuel := by simp at hdl; omega
                simp only
                by_cases hpe : payload = []
                · rw [if_pos hpe]
                  exact ih rest2 _ hr
                · rw [if_neg hpe]
                  cases hn : decodeFields fuel payload [] with
                  | error e =>
                    cases e with
                    | outOfFuel => exact absurd hn (ih payload [] hp)
                    | badTag => exact ih rest2 _ hr
                    | badVarint => exact ih rest2 _ hr
                    | badBytes => exact ih rest2 _ hr
                    | badFixed64 => exact ih rest2 _ hr
                    | badFixed32 => exact ih rest2 _ hr
                    | groupsUnsupported => exact ih rest2 _ hr
                    | unknownWireType t => exact ih rest2 _ hr
                  | ok m =>
                    cases m with
                    | nil => exact ih rest2 _ hr
                    | cons f fs => exact ih rest2 _ hr
            · rw [if_neg h2]
              by_cases h5 : wireType = 5
              · rw [if_pos h5]
                cases hv : takeFixed 4 rest with
                | none => simp
                | some p =>
                  obtain ⟨v, rest2⟩ := p
                  have := takeFixed_length 4 rest v rest2 hv
                  exact ih rest2 _ (by simp at hdl; omega)
              · rw [if_neg h5]
                by_cases h34 : wireType = 3 ∨ wireType = 4
                · rw [if_pos h34]; simp
                · rw [if_neg h34]; simp

/-- Claim C2: library response parsing is total. The decoder never runs
out of fuel at the fuel `parseLibraryResponse` supplies (the Go loop
terminates — no panic); the projection step adds no errors of its own, so
any byte input yields either a structured response or the decode
(PROTOCOL) error; a malformed top-level structure (no map at the root, or
no nested map at field 1) yields the empty response without error; and a
decoded item or album map with no recognised fields projects to all
zero/empty values. -/
theorem parseLibraryResponse_total (data : List Nat) :
    decodeProtobufToJSON data ≠ .error .outOfFuel
    ∧ (∀ e, parseLibraryResponse data = .error e ↔
        decodeProtobufToJSON data = .error e)
    ∧ (∀ decoded, decodeProtobufToJSON data = .ok decoded →
        parseLibraryResponse data = .ok (parseLibraryResponseDecoded decoded))
    ∧ (∀ decoded, decodeProtobufToJSON data = .ok decoded →
        rootField1 decoded = none →
        parseLibraryResponse data = .ok emptyLibraryResponse)
    ∧ parseMediaItem [] = emptyMediaItemInfo
    ∧ parseAlbum [] = emptyAlbumInfo := by
  refine ⟨?_, ?_, ?_, ?_, rfl, rfl⟩
  · unfold decodeProtobufToJSON
    by_cases hd : data = []
    · simp [hd]
    · rw [if_neg hd]
      cases hf : decodeFields data.length data [] with
      | error e =>
        cases e with
        | outOfFuel => exact absurd hf (decodeFields_no_fuel _ _ _ (le_refl _))
        | badTag => simp
        | badVarint => simp
        | badBytes => simp
        | badFixed64 => simp
        | badFixed32 => simp
        | groupsUnsupported => simp
        | unknownWireType t => simp
      | ok m => cases m with
        | nil => simp
        | cons f fs => simp
  · intro e
    unfold parseLibraryResponse
    cases h : decodeProtobufToJSON data with
    | error e' => simp
    | ok decoded => simp
  · intro decoded h
    unfold parseLibraryResponse
    rw [h]
  · intro decoded h hroot
    unfold parseLibraryResponse
    rw [h]
    have hd : parseLibraryResponseDecoded decoded = emptyLibraryResponse := by
      unfold parseLibraryResponseDecoded
      simp only [hroot]
    show Except.ok (parseLibraryResponseDecoded decoded)
      = Except.ok emptyLibraryResponse
    rw [hd]

/-- Witness for C2: the two-byte input `0x0A 0x00` (field 1, empty
length-delimited payload) decodes to a root whose field 1 is the empty
string, a malformed top level, so parsing yields the empty response. -/
theorem parseLibraryResponse_total_witness :
    parseLibraryResponse [10, 0] = .ok emptyLibraryResponse :=
  (parseLibraryResponse_total [10, 0]).2.2.2.1
    (some [(1, PBValue.str [])]) rfl rfl

/-! ### Upload batch driver: `Upload` and `uploadFile`
(src/unnamed/part_008, lines 54-202)

The driver goroutine filters files, sends one total-count event, pushes
files onto a buffered work channel and closes the event stream when the
workers finish; each worker repeatedly pops a file and runs the per-file
state machine, emitting events. The concurrency is modelled as a
small-step transition system over the driver/channel/worker state; the
event trace is the sequence of events sent on the (unbuffered) event
channel, in the order they are received. Cancellation is not modelled: the
traces are those of non-cancelled batches. -/

/-- Mirror of the `UploadEvent` record (the `error` field is its
message). -/
structure GoUploadEvent where
  path : String
  status : String
  mediaKey : String
  dedupKey : String
  errMsg : Option String
  workerID : Nat
  total : Nat
deriving DecidableEq

/-- Per-file oracle: the outcomes of the file hash (`CalculateSHA1`), the
dedup lookup (`FindMediaKeyByHash`, error ignored, empty string = absent),
`os.Stat`, `GetUploadToken`, `UploadFile` and `CommitUpload` for one
path. -/
structure FileOutcomeEnv where
  hashResult : Except String (List Nat)
  findResult : Except String String
  statResult : Except String Unit
  tokenResult : Except String String
  uploadResult : Except String Unit
  commitResult : Except String String

/-- The event sequence emitted by `uploadFile` for one path under a given
oracle: the per-file state machine
hashing → (checking → skipped?) → uploading → finalizing →
completed/failed, with every `send` carrying a zero `Total`. -/
def uploadFileEvents (env : FileOutcomeEnv) (filePath : String)
    (workerID : Nat) (forceUpload : Bool) : List GoUploadEvent :=
  let send := fun (status mediaKey dedupKey : String) (errMsg : Option String) =>
    (⟨filePath, status, mediaKey, dedupKey, errMsg, workerID, 0⟩ : GoUploadEvent)
  send "hashing" "" "" none ::
    match env.hashResult with
    | .error e => [send "failed" "" "" (some ("hash error: " ++ e))]
    | .ok hash =>
      let dedupKey := String.mk (sha1ToDedupeKey hash)
      let afterCheck : List GoUploadEvent :=
        match env.statResult with
        | .error e => [send "failed" "" dedupKey (some ("stat error: " ++ e))]
        | .ok _ =>
          send "uploading" "" dedupKey none ::
            match env.tokenResult with
            | .error e =>
              [send "failed" "" dedupKey (some ("upload token error: " ++ e))]
            | .ok _ =>
              match env.uploadResult with
              | .error e =>
                [send "failed" "" dedupKey (some ("upload error: " ++ e))]
              | .ok _ =>
                send "finalizing" "" dedupKey none ::
                  match env.commitResult with
                  | .error e =>
                    [send "failed" "" dedupKey (some ("commit error: " ++ e))]
                  | .ok mk =>
                    if mk = "" then
                      [send "failed" "" dedupKey (some "no media key returned")]
                    else [send "completed" mk dedupKey none]
      if forceUpload then afterCheck
      else
        send "checking" "" dedupKey none ::
          (let found := match env.findResult with
            | .ok mk => mk
            | .error _ => ""
           if found ≠ "" then [send "skipped" found dedupKey none]
           else afterCheck)

/-- The first event of a batch: only the total-count field is set. -/
def totalEvent (n : Nat) : GoUploadEvent := ⟨"", "", "", "", none, 0, n⟩

/-- The single event of a batch whose file filtering failed. -/
def filterFailEvent (e : String) : GoUploadEvent :=
  ⟨"", "failed", "", "", some e, 0, 0⟩

/-- Mirror of `workers := max(1, opts.Workers); workers = min(workers,
len(files))` (reached only when the filtered list is non-empty). -/
def goWorkerCount (optWorkers : Int) (fileCount : Nat) : Int :=
  min (max 1 optWorkers) (fileCount : Int)

/-- State of a running batch: files not yet pushed by the driver, whether
the total event has been sent, the contents of the buffered work channel,
the event queues of the busy workers, and the number of idle workers. -/
structure UploadBatchState where
  toSend : List String
  sentTotal : Bool
  chanQ : List String
  running : List (List GoUploadEvent)
  freeWorkers : Nat

/-- Initial state of a batch run: all files pending, total unsent, and
`min(max(1, W), |files|)` idle workers spun up. -/
def initUploadState (files : List String) (optWorkers : Int) :
    UploadBatchState :=
  ⟨files, false, [], [], (goWorkerCount optWorkers files.length).toNat⟩

/-- One scheduler step of a batch with per-file oracle `fenv`, force flag
`force` and total count `total`; the middle component is the list of
events appended to the trace by the step. The driver sends the total
event before the first push and never afterwards; a worker can pop a file
only from the non-empty channel; an emit delivers the head event of a
busy worker's queue, the worker going idle when its queue empties. -/
inductive UploadStep (fenv : String → FileOutcomeEnv) (force : Bool)
    (total : Nat) :
    UploadBatchState → List GoUploadEvent → UploadBatchState → Prop
  | sendTotal (s : UploadBatchState) :
      s.sentTotal = false → s.toSend ≠ [] →
      UploadStep fenv force total s [totalEvent total]
        { s with sentTotal := true }
  | pushFile (s : UploadBatchState) (p : String) (rest : List String) :
      s.sentTotal = true → s.toSend = p :: rest →
      UploadStep fenv force total s []
        { s with toSend := rest, chanQ := s.chanQ ++ [p] }
  | popFile (s : UploadBatchState) (p : String) (q : List String) (wid : Nat) :
      s.chanQ = p :: q → 0 < s.freeWorkers →
      UploadStep fenv force total s []
        { s with chanQ := q
                 freeWorkers := s.freeWorkers - 1
                 running := uploadFileEvents (fenv p) p wid force :: s.running }
  | emitEvent (s : UploadBatchState) (L1 L2 : List (List GoUploadEvent))
      (e : GoUploadEvent) (l : List GoUploadEvent) :
      s.running = L1 ++ (e :: l) :: L2 → l ≠ [] →
      UploadStep fenv force total s [e] { s with running := L1 ++ l :: L2 }
  | emitLast (s : UploadBatchState) (L1 L2 : List (List GoUploadEvent))
      (e : GoUploadEvent) :
      s.running = L1 ++ [e] :: L2 →
      UploadStep fenv force total s [e]
        { s with running := L1 ++ L2, freeWorkers := s.freeWorkers + 1 }

/-- Reachable (state, trace) pairs of a batch run over a non-empty filtered
file list. -/
inductive UploadReach (fenv : String → FileOutcomeEnv) (force : Bool)
    (files : List String) (optWorkers : Int) :
    UploadBatchState → List GoUploadEvent → Prop
  | init : UploadReach fenv force files optWorkers
      (initUploadState files optWorkers) []
  | step {s : UploadBatchState} {tr : List GoUploadEvent}
      {es : List GoUploadEvent} {s' : UploadBatchState} :
      UploadReach fenv force files optWorkers s tr →
      UploadStep fenv force files.length s es s' →
      UploadReach fenv force files optWorkers s' (tr ++ es)

/-- A finished batch: everything pushed, the channel drained and every
worker idle — the driver closes the event stream here. -/
def UploadBatchDone (s : UploadBatchState) : Prop :=
  s.toSend = [] ∧ s.chanQ = [] ∧ s.running = []

/-- Complete event traces of one `Upload` call, by filter outcome: a
filtering error produces the single failed event; an empty filtered list
produces no events at all; a non-empty list produces any trace of the
worker-pool run that reaches a finished state. -/
inductive UploadBatchTrace (fenv : String → FileOutcomeEnv) (force : Bool)
    (optWorkers : Int) :
    Except String (List String) → List GoUploadEvent → Prop
  | filterError (e : String) :
      UploadBatchTrace fenv force optWorkers (.error e) [filterFailEvent e]
  | noFiles : UploadBatchTrace fenv force optWorkers (.ok []) []
  | run (files : List String) (s : UploadBatchState)
      (tr : List GoUploadEvent) :
      files ≠ [] →
      UploadReach fenv force files optWorkers s tr →
      UploadBatchDone s →
      UploadBatchTrace fenv force optWorkers (.ok files) tr

/-- Status events only: zero `Total` and a non-empty status. -/
def statusOnly (l : List GoUploadEvent) : Prop :=
  ∀ e ∈ l, e.total = 0 ∧ e.status ≠ ""

/-- Every event emitted by the per-file state machine is a status event
with a zero total. -/
theorem uploadFileEvents_statusOnly (env : FileOutcomeEnv) (p : String)
    (wid : Nat) (force : Bool) :
    statusOnly (uploadFileEvents env p wid force) := by
  intro e he
  unfold uploadFileEvents at he
  rcases env with ⟨hr, fr, sr, tr, ur, cr⟩
  dsimp only at he
  cases hr with
  | error eh => simp at he; rcases he with rfl | rfl <;> simp
  | ok hash =>
    cases sr with
    | error es =>
      cases force with
      | true =>
        simp at he
        rcases he with rfl | rfl <;> simp
      | false =>
        cases fr with
        | error ef =>
          simp at he
          rcases he with rfl | rfl | rfl <;> simp
        | ok mk =>
          by_cases hmk : mk = ""
          · subst hmk
            simp at he
            rcases he with rfl | rfl | rfl <;> simp
          · simp [hmk] at he
            rcases he with rfl | rfl | rfl <;> simp
    | ok _ =>
      cases tr with
      | error et =>
        cases force with
        | true =>
          simp at he
          rcases he with rfl | rfl | rfl <;> simp
        | false =>
          cases fr with
          | error ef =>
            simp at he
            rcases he with rfl | rfl | rfl | rfl <;> simp
          | ok mk =>
            by_cases hmk : mk = ""
            · subst hmk
              simp at he
              rcases he with rfl | rfl | rfl | rfl <;> simp
            · simp [hmk] at he
              rcases he with rfl | rfl | rfl <;> simp
      | ok _ =>
        cases ur with
        | error eu =>
          cases force with
          | true =>
            simp at he
            rcases he with rfl | rfl | rfl <;> simp
          | false =>
            cases fr with
            | error ef =>
              simp at he
              rcases he with rfl | rfl | rfl | rfl <;> simp
            | ok mk =>
              by_cases hmk : mk = ""
              · subst hmk
                simp at he
                rcases he with rfl | rfl | rfl | rfl <;> simp
              · simp [hmk] at he
                rcases he with rfl | rfl | rfl <;> simp
        | ok _ =>
          cases cr with
          | error ec =>
            cases force with
            | true =>
              simp at he
              rcases he with rfl | rfl | rfl | rfl <;> simp
            | false =>
              cases fr with
              | error ef =>
                simp at he
                rcases he with rfl | rfl | rfl | rfl | rfl <;> simp
              | ok mk =>
                by_cases hmk : mk = ""
                · subst hmk
                  simp at he
                  rcases he with rfl | rfl | rfl | rfl | rfl <;> simp
                · simp [hmk] at he
                  rcases he with rfl | rfl | rfl <;> simp
          | ok cmk =>
            by_cases hcmk : cmk = ""
            · subst hcmk
              cases force with
              | true =>
                simp at he
                rcases he with rfl | rfl | rfl | rfl <;> simp
              | false =>
                cases fr with
                | error ef =>
                  simp at he
                  rcases he with rfl | rfl | rfl | rfl | rfl <;> simp
                | ok mk =>
                  by_cases hmk : mk = ""
                  · subst hmk
                    simp at he
                    rcases he with rfl | rfl | rfl | rfl | rfl <;> simp
                  · simp [hmk] at he
                    rcases he with rfl | rfl | rfl <;> simp
            · cases force with
              | true =>
                simp [hcmk] at he
                rcases he with rfl | rfl | rfl | rfl <;> simp
              | false =>
                cases fr with
                | error ef =>
                  simp [hcmk] at he
                  rcases he with rfl | rfl | rfl | rfl | rfl <;> simp
                | ok mk =>
                  by_cases hmk : mk = ""
                  · subst hmk
                    simp [hcmk] at he
                    rcases he with rfl | rfl | rfl | rfl | rfl <;> simp
                  · simp [hmk, hcmk] at he
                    rcases he with rfl | rfl | rfl <;> simp

/-- Batch invariant: before the total event is sent nothing has happened
(no trace, no pushed or popped file), and afterwards the trace is the
total event followed by status events only, every busy worker holding
status events only. -/
theorem uploadReach_invariant {fenv : String → FileOutcomeEnv} {force : Bool}
    {files : List String} {optW : Int} {s : UploadBatchState}
    {tr : List GoUploadEvent}
    (h : UploadReach fenv force files optW s tr) :
    (s.sentTotal = false ∧ tr = [] ∧ s.toSend = files ∧ s.chanQ = []
      ∧ s.running = [])
    ∨ (s.sentTotal = true ∧ ∃ rest, tr = totalEvent files.length :: rest
        ∧ statusOnly rest ∧ ∀ l ∈ s.running, statusOnly l) := by
  induction h with
  | init => exact Or.inl ⟨rfl, rfl, rfl, rfl, rfl⟩
  | @step s tr es s' hreach hstep ih =>
    cases hstep with
    | sendTotal hsent hne =>
      rcases ih with ⟨h1, h2, h3, h4, h5⟩ | ⟨h1, _⟩
      · refine Or.inr ⟨rfl, [], ?_, ?_, ?_⟩
        · rw [h2]; rfl
        · intro e he; simp at he
        · intro l hl
          rw [show ({ s with sentTotal := true } : UploadBatchState).running
            = s.running from rfl, h5] at hl
          simp at hl
      · rw [h1] at hsent; simp at hsent
    | pushFile p rest hsent hts =>
      rcases ih with ⟨h1, _⟩ | ⟨h1, rest', htr, hso, hrun⟩
      · rw [h1] at hsent; simp at hsent
      · exact Or.inr ⟨h1, rest', by rw [List.append_nil]; exact htr, hso, hrun⟩
    | popFile p q wid hchan hfree =>
      rcases ih with ⟨h1, h2, h3, h4, h5⟩ | ⟨h1, rest', htr, hso, hrun⟩
      · rw [h4] at hchan; simp at hchan
      · refine Or.inr ⟨h1, rest',
          by rw [List.append_nil]; exact htr, hso, ?_⟩
        intro l hl
        rcases List.mem_cons.mp hl with rfl | hl
        · exact uploadFileEvents_statusOnly _ _ _ _
        · exact hrun l hl
    | emitEvent L1 L2 e l hrunEq hlne =>
      rcases ih with ⟨h1, h2, h3, h4, h5⟩ | ⟨h1, rest', htr, hso, hrun⟩
      · rw [h5] at hrunEq; exact absurd hrunEq.symm (by simp)
      · have hmem : (e :: l) ∈ s.running := by rw [hrunEq]; simp
        have hel := hrun _ hmem
        refine Or.inr ⟨h1, rest' ++ [e], ?_, ?_, ?_⟩
        · rw [htr]; simp
        · intro x hx
          rcases List.mem_append.mp hx with hx | hx
          · exact hso x hx
          · have hx' : x = e := by simpa using hx
            rw [hx']
            exact hel e (by simp)
        · intro l' hl'
          rcases List.mem_append.mp hl' with hl' | hl'
          · exact hrun l' (by rw [hrunEq]; exact List.mem_append.mpr (Or.inl hl'))
          · rcases List.mem_cons.mp hl' with rfl | hl'
            · intro x hx; exact hel x (by simp [hx])
            · exact hrun l' (by
                rw [hrunEq]
                refine List.mem_append.mpr (Or.inr ?_)
                simp [hl'])
    | emitLast L1 L2 e hrunEq =>
      rcases ih with ⟨h1, h2, h3, h4, h5⟩ | ⟨h1, rest', htr, hso, hrun⟩
      · rw [h5] at hrunEq; exact absurd hrunEq.symm (by simp)
      · have hmem : [e] ∈ s.running := by rw [hrunEq]; simp
        have hel := hrun _ hmem
        refine Or.inr ⟨h1, rest' ++ [e], ?_, ?_, ?_⟩
        · rw [htr]; simp
        · intro x hx
          rcases List.mem_append.mp hx with hx | hx
          · exact hso x hx
          · have hx' : x = e := by simpa using hx
            rw [hx']
            exact hel e (by simp)
        · intro l' hl'
          rcases List.mem_append.mp hl' with hl' | hl'
          · exact hrun l' (by rw [hrunEq]; exact List.mem_append.mpr (Or.inl hl'))
          · exact hrun l' (by
              rw [hrunEq]
              refine List.mem_append.mpr (Or.inr ?_)
              simp [hl'])

/-- A status event list contributes nothing to the count of events with a
positive total. -/
theorem countP_total_statusOnly (l : List GoUploadEvent) (h : statusOnly l) :
    List.countP (fun e => decide (0 < e.total)) l = 0 := by
  induction l with
  | nil => rfl
  | cons e t ih =>
    rw [List.countP_cons]
    have he := h e (by simp)
    have ht : statusOnly t := fun x hx => h x (by simp [hx])
    simp [ih ht, he.1]

/-- Claim C1 (amended): for every non-cancelled upload batch whose file
filtering succeeds with a non-empty file list, the event stream contains
exactly one event whose total field is positive — it equals the number of
files after filtering — and that event is the first of the stream, so it
precedes every status-carrying event; no status event precedes it. -/
theorem upload_total_event_first (fenv : String → FileOutcomeEnv)
    (force : Bool) (optW : Int) (files : List String)
    (tr : List GoUploadEvent) (hne : files ≠ [])
    (h : UploadBatchTrace fenv force optW (.ok files) tr) :
    ∃ rest, tr = totalEvent files.length :: rest
      ∧ 0 < files.length
      ∧ (totalEvent files.length).total = files.length
      ∧ (totalEvent files.length).status = ""
      ∧ statusOnly rest
      ∧ List.countP (fun e => decide (0 < e.total)) tr = 1 := by
  cases h with
  | noFiles => exact absurd rfl hne
  | run files s tr hne' hreach hdone =>
    rcases uploadReach_invariant hreach with ⟨h1, h2, h3, h4, h5⟩ |
      ⟨h1, rest, htr, hso, hrun⟩
    · rw [hdone.1] at h3
      exact absurd h3.symm hne'
    · have hlen : 0 < files.length := by
        cases files with
        | nil => exact absurd rfl hne'
        | cons _ _ => simp
      refine ⟨rest, htr, hlen, rfl, rfl, hso, ?_⟩
      rw [htr, List.countP_cons, countP_total_statusOnly rest hso]
      simp [totalEvent, hlen]

/-- Stub per-file oracle: every external operation fails with an I/O
error. -/
def stubFileOutcomeEnv : FileOutcomeEnv :=
  ⟨.error "io", .error "io", .error "io", .error "io", .error "io", .error "io"⟩

/-- Counterexample to C1 as stated: a batch whose filtered file list is
empty closes the event stream with no events at all, so its stream does
not contain exactly one event with a positive total. -/
theorem upload_total_event_counterexample :
    UploadBatchTrace (fun _ => stubFileOutcomeEnv) false 2 (.ok []) []
    ∧ List.countP (fun e => decide (0 < e.total)) ([] : List GoUploadEvent) ≠ 1 :=
  ⟨.noFiles, by decide⟩

/-- A complete demonstration trace of a one-file batch: the total event,
then the hashing event, then the hash-failure event. -/
def demoTrace : List GoUploadEvent :=
  [totalEvent 1,
    ⟨"a", "hashing", "", "", none, 0, 0⟩,
    ⟨"a", "failed", "", "", some "hash error: io", 0, 0⟩]

/-- Witness for C1 (amended): the one-file batch whose hash fails yields
the trace total-event, hashing, failed, with the total event first. -/
theorem upload_total_event_first_witness :
    ∃ rest, demoTrace = totalEvent (["a"] : List String).length :: rest
      ∧ 0 < (["a"] : List String).length
      ∧ (totalEvent (["a"] : List String).length).total
          = (["a"] : List String).length
      ∧ (totalEvent (["a"] : List String).length).status = ""
      ∧ statusOnly rest
      ∧ List.countP (fun e => decide (0 < e.total)) demoTrace = 1 := by
  have r0 : UploadReach (fun _ => stubFileOutcomeEnv) false ["a"] 1
      (initUploadState ["a"] 1) [] := UploadReach.init
  have r1 := r0.step (UploadStep.sendTotal _ rfl (by decide))
  have r2 := r1.step (UploadStep.pushFile _ "a" [] rfl rfl)
  have r3 := r2.step (UploadStep.popFile _ "a" [] 0 rfl (by decide))
  have r4 := r3.step (UploadStep.emitEvent _ [] []
    ⟨"a", "hashing", "", "", none, 0, 0⟩
    [⟨"a", "failed", "", "", some "hash error: io", 0, 0⟩] rfl (by decide))
  have r5 := r4.step (UploadStep.emitLast _ [] []
    ⟨"a", "failed", "", "", some "hash error: io", 0, 0⟩ rfl)
  exact upload_total_event_first (fun _ => stubFileOutcomeEnv) false 1 ["a"]
    demoTrace (by decide)
    (UploadBatchTrace.run ["a"] _ demoTrace (by decide) r5 ⟨rfl, rfl, rfl⟩)

/-- Claim C5: a batch with an empty filtered file list closes the event
stream immediately with no events; otherwise the number of workers spun
up is `min(max(1, W), F)`, so a worker count of zero or negative is
treated as one. -/
theorem upload_worker_count (fenv : String → FileOutcomeEnv) (force : Bool)
    (optW : Int) (files : List String) :
    (∀ tr, UploadBatchTrace fenv force optW (.ok []) tr → tr = [])
    ∧ (files ≠ [] →
        goWorkerCount optW files.length = min (max 1 optW) (files.length : Int)
        ∧ (initUploadState files optW).freeWorkers
            = (goWorkerCount optW files.length).toNat
        ∧ (optW ≤ 0 → goWorkerCount optW files.length = 1)) := by
  constructor
  · intro tr h
    cases h with
    | noFiles => rfl
    | run files' s tr hne hreach hdone => exact absurd rfl hne
  · intro hne
    refine ⟨rfl, rfl, ?_⟩
    intro hw
    have hf : 1 ≤ files.length := by
      cases files with
      | nil => exact absurd rfl hne
      | cons _ _ => simp
    unfold goWorkerCount
    omega

/-- Witness for C5: a requested worker count of 0 on a one-file batch
spins up one worker. -/
theorem upload_worker_count_witness :
    goWorkerCount 0 (["a"] : List String).length = 1 := by
  have h := ((upload_worker_count (fun _ => stubFileOutcomeEnv) false 0
    ["a"]).2 (by decide)).2.2 (by norm_num)
  exact h

end GoGpm
